import Mathlib

/-!
Verification of the genjibot core against its specification.

This file gives a shallow embedding, in Lean 4, of the parts of the
repository that the checked claims are about:

- the difficulty-vote histogram bucketing (src/playtest/playtest_graph.py),
- the in-memory entity cache (src/utils/cache.py),
- the autocomplete helper (src/cogs/ that filters cache choices),
- the submission validation checks (src/cogs/ submit flow),
- the change-request staleness sweep (src/cogs/change_requests_forum.py),
- the queue message dispatcher (src/utils/rabbit/client.py).

Python floats carrying decimal difficulty values are modelled as rationals;
timestamps are modelled as integers (seconds); raised exceptions are modelled
with the Except monad.
-/

/-! ## Difficulty histogram (src/playtest/playtest_graph.py) -/

/-- HELL_VALUE constant from playtest_graph.py. -/
def HELL_VALUE : ℚ := 10

/-- BUCKETS table from playtest_graph.py: name, lower bound, upper bound,
in source order.  The decimal float literals of the source are written as
exact rationals. -/
def BUCKETS : List (String × ℚ × ℚ) := [
  ("Easy -", 0, 118/100), ("Easy", 118/100, 176/100), ("Easy +", 176/100, 235/100),
  ("Medium -", 235/100, 294/100), ("Medium", 294/100, 353/100), ("Medium +", 353/100, 412/100),
  ("Hard -", 412/100, 471/100), ("Hard", 471/100, 529/100), ("Hard +", 529/100, 588/100),
  ("Very Hard -", 588/100, 647/100), ("Very Hard", 647/100, 706/100), ("Very Hard +", 706/100, 765/100),
  ("Extreme -", 765/100, 824/100), ("Extreme", 824/100, 882/100), ("Extreme +", 882/100, 941/100),
  ("Hell", 941/100, 10)]

/-- Membership test of one loop iteration of _find_bucket_name:
low <= val < high, or the special case bucket == "Hell" and val == HELL_VALUE. -/
def inBucket (val : ℚ) (b : String × ℚ × ℚ) : Prop :=
  (b.2.1 ≤ val ∧ val < b.2.2) ∨ (b.1 = "Hell" ∧ val = HELL_VALUE)

instance (val : ℚ) (b : String × ℚ × ℚ) : Decidable (inBucket val b) := by
  unfold inBucket; infer_instance

/-- Loop of VoteHistogram._find_bucket_name: return the first bucket whose
condition matches. -/
def find_bucket_go (val : ℚ) : List (String × ℚ × ℚ) → Option String
  | [] => none
  | b :: rest => if inBucket val b then some b.1 else find_bucket_go val rest

/-- VoteHistogram._find_bucket_name (identical loop to _assign_bucket and
_get_bucket_for_vote, up to the fallback string). -/
def find_bucket_name (val : ℚ) : String :=
  (find_bucket_go val BUCKETS).getD "Unknown Difficulty"

/-- Arithmetic mean of the vote list, as computed by
pd.DataFrame({...})['vote'].mean() in VoteHistogram.__init__. -/
def avg_vote (votes : List ℚ) : ℚ := votes.sum / votes.length

/-! ## Entity cache (src/utils/cache.py) -/

/-- Exceptions DoesNotExist / AlreadyExists of src/utils/cache.py. -/
inductive CacheError
  | alreadyExists
  | doesNotExist
deriving DecidableEq, Repr

/-- SequenceCache: a keyed list of cached objects.  The Python class stores
the name of the key attribute (key_value) and reads it with getattr; here
the attribute access is modelled by the function field key. -/
structure SequenceCache (K T : Type) where
  key : T → K
  values : List T

/-- SequenceCache.keys: the list of keys of the stored values. -/
def SequenceCache.keys (c : SequenceCache K T) : List K := c.values.map c.key

/-- Loop body of SequenceCache.add_many: walk the batch, raising AlreadyExists
as soon as one key is already present in the cache (the keys property is
computed from the pre-batch values, so batch elements are only checked
against pre-existing keys), otherwise accumulate into the local batch list. -/
def SequenceCache.addManyGo [DecidableEq K] (c : SequenceCache K T) :
    List T → List T → Except CacheError (List T)
  | [], acc => Except.ok acc
  | o :: rest, acc =>
    if c.key o ∈ c.keys then Except.error CacheError.alreadyExists
    else c.addManyGo rest (acc ++ [o])

/-- SequenceCache.add_many: on success the accumulated batch is appended
(self.values.extend); on an exception self.values is untouched. -/
def SequenceCache.add_many [DecidableEq K] (c : SequenceCache K T) (objs : List T) :
    Except CacheError (SequenceCache K T) :=
  (c.addManyGo objs []).map fun os => { c with values := c.values ++ os }

/-- SequenceCache.add_one.  The source first tests the new object's key for
membership in self.values (the object list, not the key list); for the cached
types a key never compares equal to a cache object, so that test never fires,
and the effective behaviour is add_many applied to the one-element batch. -/
def SequenceCache.add_one [DecidableEq K] (c : SequenceCache K T) (obj : T) :
    Except CacheError (SequenceCache K T) :=
  c.add_many [obj]

/-- SequenceCache.find: first stored value whose key equals the argument,
as _find_one does; Python implicitly returns None when the loop falls out. -/
def SequenceCache.find [DecidableEq K] (c : SequenceCache K T) (k : K) : Option T :=
  c.values.find? fun o => decide (c.key o = k)

/-- SequenceCache.remove_one: DoesNotExist when the key is absent, otherwise
find the first value with the key and list.remove it (remove the first
occurrence of that object). -/
def SequenceCache.remove_one [DecidableEq K] [DecidableEq T] (c : SequenceCache K T) (k : K) :
    Except CacheError (SequenceCache K T) :=
  if k ∉ c.keys then Except.error CacheError.doesNotExist
  else
    match c.find k with
    | some found => Except.ok { c with values := c.values.erase found }
    | none => Except.ok c

/-- SequenceCache.clear_all. -/
def SequenceCache.clear_all (c : SequenceCache K T) : SequenceCache K T :=
  { c with values := [] }

/-- Choice: the display pair (name, value) given by app_commands.Choice, kept
on every cache entry via refresh.  Strings are modelled as character lists so
that the substring test of the autocomplete is transparent. -/
structure Choice where
  name : List Char
  value : List Char
deriving DecidableEq, Repr

/-- Sorting step of the SequenceCache.choices property:
sorted(self.values, key=lambda x: getattr(x, self.key_value)).
Python sorted is a stable ascending sort, modelled by mergeSort. -/
def SequenceCache.sortedValues [LinearOrder K] (c : SequenceCache K T) : List T :=
  c.values.mergeSort fun a b => decide (c.key a ≤ c.key b)

/-- SequenceCache.choices: the Choice of every stored value, in ascending key
order.  Each entry keeps its choice in sync via refresh; the accessor
choiceOf models reading x.choice. -/
def SequenceCache.choices [LinearOrder K] (c : SequenceCache K T) (choiceOf : T → Choice) :
    List Choice :=
  (c.sortedValues).map choiceOf

/-- One cache mutation, for reasoning about operation sequences. -/
inductive CacheOp (K T : Type)
  | addOne (x : T)
  | addMany (xs : List T)
  | removeOne (k : K)

/-- Apply one cache mutation; a raised cache exception aborts the operation
and leaves the collection unchanged. -/
def applyCacheOp [DecidableEq K] [DecidableEq T] (c : SequenceCache K T) :
    CacheOp K T → SequenceCache K T
  | CacheOp.addOne x =>
    match c.add_one x with
    | Except.ok c2 => c2
    | Except.error _ => c
  | CacheOp.addMany xs =>
    match c.add_many xs with
    | Except.ok c2 => c2
    | Except.error _ => c
  | CacheOp.removeOne k =>
    match c.remove_one k with
    | Except.ok c2 => c2
    | Except.error _ => c

/-- Apply a sequence of cache mutations. -/
def applyCacheOps [DecidableEq K] [DecidableEq T] (c : SequenceCache K T) :
    List (CacheOp K T) → SequenceCache K T
  | [] => c
  | op :: rest => applyCacheOps (applyCacheOp c op) rest

/-- A batch constraint: an addMany batch whose keys are pairwise distinct. -/
def opBatchKeysNodup [DecidableEq K] (key : T → K) : CacheOp K T → Prop
  | CacheOp.addMany xs => (xs.map key).Nodup
  | _ => True

/-- MapData from src/utils/cache.py (the choice field is derived from
map_code by refresh and is not duplicated here). -/
structure MapData where
  map_code : String
  user_ids : List Int
  archived : Bool
deriving DecidableEq, Repr

/-- MapData.add_creator: AlreadyExists when the user id is already a creator,
otherwise append it. -/
def MapData.add_creator (m : MapData) (user_id : Int) : Except CacheError MapData :=
  if user_id ∈ m.user_ids then Except.error CacheError.alreadyExists
  else Except.ok { m with user_ids := m.user_ids ++ [user_id] }

/-- MapData.remove_creator: DoesNotExist when the user id is not a creator,
otherwise list.remove it (first occurrence). -/
def MapData.remove_creator (m : MapData) (user_id : Int) : Except CacheError MapData :=
  if user_id ∉ m.user_ids then Except.error CacheError.doesNotExist
  else Except.ok { m with user_ids := m.user_ids.erase user_id }

/-- One creator-list mutation. -/
inductive CreatorOp
  | add (user_id : Int)
  | remove (user_id : Int)
deriving DecidableEq, Repr

/-- Apply one creator mutation; a raised exception leaves the entry
unchanged. -/
def applyCreatorOp (m : MapData) : CreatorOp → MapData
  | CreatorOp.add uid =>
    match m.add_creator uid with
    | Except.ok m2 => m2
    | Except.error _ => m
  | CreatorOp.remove uid =>
    match m.remove_creator uid with
    | Except.ok m2 => m2
    | Except.error _ => m

/-- Apply a sequence of creator mutations. -/
def applyCreatorOps (m : MapData) : List CreatorOp → MapData
  | [] => m
  | op :: rest => applyCreatorOps (applyCreatorOp m op) rest

/-- MapNamesData (a StrCache whose key is its string value); the other string
collections MapTypesData, MapMechanicsData, MapRestrictionsData and TagsData
are the same shape. -/
structure MapNamesData where
  value : List Char
deriving DecidableEq, Repr

/-- A fresh map-names collection (key_value is the value attribute). -/
def emptyMapNames : SequenceCache (List Char) MapNamesData :=
  { key := MapNamesData.value, values := [] }

/-- A fresh maps collection (key_value is the map_code attribute). -/
def emptyMaps : SequenceCache String MapData :=
  { key := MapData.map_code, values := [] }

/-! ## Autocomplete (src/cogs/: case_ignore_compare and _autocomplete) -/

/-- Python substring containment (needle in hay) on character lists. -/
def str_in (needle : List Char) : List Char → Bool
  | [] => needle.isPrefixOf []
  | c :: t => needle.isPrefixOf (c :: t) || str_in needle t

/-- case_ignore_compare(string1, string2): string2.casefold() in
string1.casefold().  The None guard of the source never fires for cache
choices, whose names are always strings; casefold is modelled as
per-character lowercasing. -/
def case_ignore_compare (s1 s2 : List Char) : Bool :=
  str_in (s2.map Char.toLower) (s1.map Char.toLower)

/-- _autocomplete(current, choices): empty choice list is returned as-is;
an empty prefix keeps the first 25 choices; otherwise the choices whose name
contains the prefix case-insensitively, capped at 25. -/
def autocomplete_choices (current : List Char) (choices : List Choice) : List Choice :=
  if choices = [] then []
  else if current = [] then choices.take 25
  else (choices.filter fun x => case_ignore_compare x.name current).take 25

/-! ## Submission validation (src/cogs/: submit_map_ and its helpers) -/

/-- Errors raised by the submit flow (utils.InvalidMedals,
utils.MaxMapsInPlaytest, utils.MaxWeeklyMapsInPlaytest; the weekly error
carries the retry-eligible timestamp it surfaces to the user). -/
inductive SubmitError
  | invalidMedals
  | maxMapsInPlaytest
  | maxWeeklyMapsInPlaytest (retry_at : Int)
deriving DecidableEq, Repr

/-- Medal thresholds of a candidate submission.  The submit command takes
gold, silver and bronze with default 0, i.e. 0 means the threshold is absent.
The remaining MapSubmission fields play no role in the medal rule. -/
structure MapSubmission where
  gold : ℚ
  silver : ℚ
  bronze : ℚ
deriving DecidableEq, Repr

/-- Modelled from the spec: the MapSubmission data class lives in
utils/maps.py, which is not among the sources; per the spec the medal
thresholds are all optional and the medal rule applies when any threshold is
set, so the medals flag is true when some threshold is present (non-zero). -/
def MapSubmission.medals (m : MapSubmission) : Bool :=
  decide (m.gold ≠ 0) || decide (m.silver ≠ 0) || decide (m.bronze ≠ 0)

/-- Medal validation of submit_map_: when medals are set, require
0 < gold < silver < bronze, else raise InvalidMedals. -/
def medal_check (m : MapSubmission) : Except SubmitError Unit :=
  if m.medals then
    if ¬ (0 < m.gold ∧ m.gold < m.silver ∧ m.silver < m.bronze) then
      Except.error SubmitError.invalidMedals
    else Except.ok ()
  else Except.ok ()

/-- Seconds of the SQL INTERVAL of 1 week, also timedelta(weeks=1). -/
def WEEK_SECONDS : Int := 604800

/-- Rows counted by _check_weekly_limit: the submission dates of the user
with date BETWEEN now() - one week AND now() (inclusive on both ends). -/
def weekly_window (dates : List Int) (now : Int) : List Int :=
  dates.filter fun d => decide (now - WEEK_SECONDS ≤ d ∧ d ≤ now)

/-- Validation sequence of submit_map_: medal rule, then the concurrent
playtest quota (raise at count >= 5), then the weekly quota (raise at
count >= 2 with retry timestamp min(date) + one week).  The getD fallback is
unreachable: a window with at least two elements has a minimum. -/
def submit_map_checks (m : MapSubmission) (open_playtest_count : Nat)
    (submission_dates : List Int) (now : Int) : Except SubmitError Unit :=
  match medal_check m with
  | Except.error e => Except.error e
  | Except.ok _ =>
    if 5 ≤ open_playtest_count then Except.error SubmitError.maxMapsInPlaytest
    else
      let window := weekly_window submission_dates now
      if 2 ≤ window.length then
        Except.error (SubmitError.maxWeeklyMapsInPlaytest (window.min?.getD 0 + WEEK_SECONDS))
      else Except.ok ()

/-! ## Change-request staleness sweep (src/cogs/change_requests_forum.py) -/

/-- One row of the change-request store. -/
structure ChangeRequestRow where
  thread_id : Int
  user_id : Int
  created_at : Int
  alerted : Bool
  resolved : Bool
deriving DecidableEq, Repr

/-- The two table names the cog addresses.  The SELECT of the sweep reads
from the table named change_requests, while _set_alerted issues its UPDATE
against the table named change_request (singular); both names are kept so
the embedding can express where each statement lands. -/
structure ChangeRequestTables where
  change_requests : List ChangeRequestRow
  change_request : List ChangeRequestRow
deriving DecidableEq, Repr

/-- Seconds of the SQL INTERVAL of 2 weeks. -/
def TWO_WEEKS_SECONDS : Int := 1209600

/-- Row filter of the sweep's SELECT: created_at < NOW() - two weeks AND
alerted IS FALSE AND resolved IS FALSE. -/
def stale_unflagged (now : Int) (r : ChangeRequestRow) : Bool :=
  decide (r.created_at < now - TWO_WEEKS_SECONDS) && !r.alerted && !r.resolved

/-- _set_alerted: UPDATE change_request SET alerted = TRUE WHERE
thread_id = $1 — note the statement updates the table named change_request,
not the change_requests table the sweep reads from. -/
def set_alerted (db : ChangeRequestTables) (tid : Int) : ChangeRequestTables :=
  { db with change_request :=
      db.change_request.map fun r =>
        if r.thread_id = tid then { r with alerted := true } else r }

/-- One run of alert_stale_change_requests: fetch the stale unflagged rows,
and for each row whose thread still exists, send the stale alert (collected
in the returned list of thread ids) and then call _set_alerted. -/
def sweep_stale_change_requests (db : ChangeRequestTables) (now : Int)
    (thread_exists : Int → Bool) : ChangeRequestTables × List Int :=
  (db.change_requests.filter (stale_unflagged now)).foldl
    (fun acc r =>
      if thread_exists r.thread_id then (set_alerted acc.1 r.thread_id, acc.2 ++ [r.thread_id])
      else acc)
    (db, [])

/-! ## Queue dispatcher (src/utils/rabbit/client.py, Rabbit._process_message) -/

/-- Observable side effects of processing one queue message: the playtest
manager call, or a genji_dispatch.handle_event call for the given tag. -/
inductive RabbitSideEffect
  | add_playtest
  | handle_event (x_type : String)
deriving DecidableEq, Repr

/-- Errors escaping _process_message: the KeyError of reading a missing
x-type header, and the NameError of the legacy branch, which reaches the
event dispatch with the payload variable never assigned. -/
inductive ProcessError
  | missingTypeHeader
  | unboundEventData
deriving DecidableEq, Repr

/-- An inbound envelope: the optional x-type header and the truthiness of
the x-test-mode header.  The body payloads are irrelevant to dispatching and
are not modelled. -/
structure QueueMessage where
  x_type : Option String
  test_mode : Bool
deriving DecidableEq, Repr

/-- Rabbit._process_message: read headers, x-type (KeyError when absent),
then short-circuit on test mode, then match on the tag: playtest calls the
playtest manager and returns; bulk_archive and bulk_unarchive decode and fall
through to the event dispatch; legacy does nothing in its branch and falls
through to the dispatch where the payload variable is unbound (NameError);
any other tag returns silently. -/
def process_message (msg : QueueMessage) : Except ProcessError (List RabbitSideEffect) :=
  match msg.x_type with
  | none => Except.error ProcessError.missingTypeHeader
  | some x_type =>
    if msg.test_mode then Except.ok []
    else if x_type = "playtest" then Except.ok [RabbitSideEffect.add_playtest]
    else if x_type = "bulk_archive" ∨ x_type = "bulk_unarchive" then
      Except.ok [RabbitSideEffect.handle_event x_type]
    else if x_type = "legacy" then Except.error ProcessError.unboundEventData
    else Except.ok []

/-! ## Theorems

Helper lemmas come first; the claim theorems follow, one per claim, each
with a doc comment naming the claim. -/

theorem bucket_exists (v : ℚ) (h0 : 0 ≤ v) (h10 : v ≤ 10) :
    ∃ b ∈ BUCKETS, inBucket v b := by
  rcases lt_or_le v (118/100) with h1 | h1
  · exact ⟨("Easy -", 0, 118/100), by norm_num [BUCKETS], Or.inl ⟨h0, h1⟩⟩
  rcases lt_or_le v (176/100) with h2 | h2
  · exact ⟨("Easy", 118/100, 176/100), by norm_num [BUCKETS], Or.inl ⟨h1, h2⟩⟩
  rcases lt_or_le v (235/100) with h3 | h3
  · exact ⟨("Easy +", 176/100, 235/100), by norm_num [BUCKETS], Or.inl ⟨h2, h3⟩⟩
  rcases lt_or_le v (294/100) with h4 | h4
  · exact ⟨("Medium -", 235/100, 294/100), by norm_num [BUCKETS], Or.inl ⟨h3, h4⟩⟩
  rcases lt_or_le v (353/100) with h5 | h5
  · exact ⟨("Medium", 294/100, 353/100), by norm_num [BUCKETS], Or.inl ⟨h4, h5⟩⟩
  rcases lt_or_le v (412/100) with h6 | h6
  · exact ⟨("Medium +", 353/100, 412/100), by norm_num [BUCKETS], Or.inl ⟨h5, h6⟩⟩
  rcases lt_or_le v (471/100) with h7 | h7
  · exact ⟨("Hard -", 412/100, 471/100), by norm_num [BUCKETS], Or.inl ⟨h6, h7⟩⟩
  rcases lt_or_le v (529/100) with h8 | h8
  · exact ⟨("Hard", 471/100, 529/100), by norm_num [BUCKETS], Or.inl ⟨h7, h8⟩⟩
  rcases lt_or_le v (588/100) with h9 | h9
  · exact ⟨("Hard +", 529/100, 588/100), by norm_num [BUCKETS], Or.inl ⟨h8, h9⟩⟩
  rcases lt_or_le v (647/100) with ha | ha
  · exact ⟨("Very Hard -", 588/100, 647/100), by norm_num [BUCKETS], Or.inl ⟨h9, ha⟩⟩
  rcases lt_or_le v (706/100) with hb | hb
  · exact ⟨("Very Hard", 647/100, 706/100), by norm_num [BUCKETS], Or.inl ⟨ha, hb⟩⟩
  rcases lt_or_le v (765/100) with hc | hc
  · exact ⟨("Very Hard +", 706/100, 765/100), by norm_num [BUCKETS], Or.inl ⟨hb, hc⟩⟩
  rcases lt_or_le v (824/100) with hd | hd
  · exact ⟨("Extreme -", 765/100, 824/100), by norm_num [BUCKETS], Or.inl ⟨hc, hd⟩⟩
  rcases lt_or_le v (882/100) with he | he
  · exact ⟨("Extreme", 824/100, 882/100), by norm_num [BUCKETS], Or.inl ⟨hd, he⟩⟩
  rcases lt_or_le v (941/100) with hf | hf
  · exact ⟨("Extreme +", 882/100, 941/100), by norm_num [BUCKETS], Or.inl ⟨he, hf⟩⟩
  rcases lt_or_eq_of_le h10 with hv | hv
  · exact ⟨("Hell", 941/100, 10), by norm_num [BUCKETS], Or.inl ⟨hf, hv⟩⟩
  · exact ⟨("Hell", 941/100, 10), by norm_num [BUCKETS], Or.inr ⟨rfl, by simp [HELL_VALUE, hv]⟩⟩

set_option maxHeartbeats 2000000 in
theorem inBucket_unique (v : ℚ) :
    ∀ b1 ∈ BUCKETS, ∀ b2 ∈ BUCKETS, inBucket v b1 → inBucket v b2 → b1 = b2 := by
  intro b1 hb1 b2 hb2 m1 m2
  simp only [inBucket, HELL_VALUE] at m1 m2
  fin_cases hb1 <;> fin_cases hb2 <;>
    first
    | rfl
    | (exfalso
       rcases m1 with ⟨l1, r1⟩ | ⟨e1, v1⟩ <;> rcases m2 with ⟨l2, r2⟩ | ⟨e2, v2⟩ <;>
         first
         | (exact absurd e1 (by decide))
         | (exact absurd e2 (by decide))
         | linarith)

theorem find_bucket_go_eq (v : ℚ) (l : List (String × ℚ × ℚ)) (b : String × ℚ × ℚ)
    (hb : b ∈ l) (m : inBucket v b) (uniq : ∀ b2 ∈ l, inBucket v b2 → b2 = b) :
    find_bucket_go v l = some b.1 := by
  induction l with
  | nil => cases hb
  | cons a rest ih =>
    by_cases ha : inBucket v a
    · have hab : a = b := uniq a (List.mem_cons_self a rest) ha
      subst hab
      simp [find_bucket_go, ha]
    · rcases List.mem_cons.mp hb with rfl | hb2
      · exact absurd m ha
      · simp only [find_bucket_go, if_neg ha]
        exact ih hb2 fun b2 h2 m2 => uniq b2 (List.mem_cons_of_mem a h2) m2

/-- C1 counterexample: the arithmetic mean of the votes [1.0, 9.0] is 5.0,
and the code assigns 5.0 to the bucket named "Hard", which is the 8th entry
of the table (index 7 of 0..15), not to a bucket named "Medium +" (the 6th
entry): the claim's statement that the mean lands in bucket 7 ("Medium +")
is false on the defined table. -/
theorem histogram_mean_bucket_counterexample :
    avg_vote [1, 9] = 5
    ∧ find_bucket_name 5 = "Hard"
    ∧ find_bucket_name 5 ≠ "Medium +"
    ∧ (BUCKETS.map Prod.fst).indexOf "Hard" = 7
    ∧ (BUCKETS.map Prod.fst).indexOf "Medium +" = 5 := by
  refine ⟨by norm_num [avg_vote], ?_, ?_, by decide, by decide⟩
  · norm_num [find_bucket_name, find_bucket_go, BUCKETS, inBucket, HELL_VALUE]
  · norm_num [find_bucket_name, find_bucket_go, BUCKETS, inBucket, HELL_VALUE]
    decide

/-- C1 (amended): every difficulty value v in [0,10] lies in exactly one of
the 16 contiguous non-overlapping buckets of the table, and the bucket lookup
returns exactly that bucket's name; a value on a shared boundary belongs to
the upper bucket, except 10.0 which belongs to the final bucket "Hell";
0.0 is assigned to bucket 1 ("Easy -") and 10.0 to bucket 16 ("Hell"); the
mean of the votes [1.0, 9.0] is 5.0 and is assigned to bucket 8 ("Hard") —
not bucket 7 ("Medium +") as the claim stated. -/
theorem histogram_bucket_assignment (v : ℚ) (h0 : 0 ≤ v) (h10 : v ≤ 10) :
    (∃! b, b ∈ BUCKETS ∧ inBucket v b)
    ∧ (∃ b ∈ BUCKETS, inBucket v b ∧ find_bucket_name v = b.1)
    ∧ BUCKETS.length = 16
    ∧ List.Chain' (fun a b => a.2.2 = b.2.1) BUCKETS
    ∧ find_bucket_name 0 = "Easy -"
    ∧ find_bucket_name 10 = "Hell"
    ∧ (BUCKETS.map Prod.fst).indexOf "Easy -" = 0
    ∧ (BUCKETS.map Prod.fst).indexOf "Hell" = 15
    ∧ (find_bucket_name (118/100) = "Easy" ∧ find_bucket_name (176/100) = "Easy +"
       ∧ find_bucket_name (235/100) = "Medium -" ∧ find_bucket_name (294/100) = "Medium"
       ∧ find_bucket_name (353/100) = "Medium +" ∧ find_bucket_name (412/100) = "Hard -"
       ∧ find_bucket_name (471/100) = "Hard" ∧ find_bucket_name (529/100) = "Hard +"
       ∧ find_bucket_name (588/100) = "Very Hard -" ∧ find_bucket_name (647/100) = "Very Hard"
       ∧ find_bucket_name (706/100) = "Very Hard +" ∧ find_bucket_name (765/100) = "Extreme -"
       ∧ find_bucket_name (824/100) = "Extreme" ∧ find_bucket_name (882/100) = "Extreme +"
       ∧ find_bucket_name (941/100) = "Hell")
    ∧ avg_vote [1, 9] = 5
    ∧ find_bucket_name 5 = "Hard"
    ∧ (BUCKETS.map Prod.fst).indexOf "Hard" = 7 := by
  obtain ⟨b, hb, m⟩ := bucket_exists v h0 h10
  refine ⟨⟨b, ⟨hb, m⟩, fun b2 h2 => inBucket_unique v b2 h2.1 b hb h2.2 m⟩,
    ⟨b, hb, m, ?_⟩, rfl, ?_, ?_, ?_, by decide, by decide, ?_, by norm_num [avg_vote], ?_, by decide⟩
  · rw [find_bucket_name,
      find_bucket_go_eq v BUCKETS b hb m fun b2 h2 m2 => inBucket_unique v b2 h2 b hb m2 m]
    rfl
  · norm_num [BUCKETS]
  · norm_num [find_bucket_name, find_bucket_go, BUCKETS, inBucket, HELL_VALUE]
  · norm_num [find_bucket_name, find_bucket_go, BUCKETS, inBucket, HELL_VALUE]
    decide
  · refine ⟨?_, ?_, ?_, ?_, ?_, ?_, ?_, ?_, ?_, ?_, ?_, ?_, ?_, ?_, ?_⟩ <;>
      norm_num [find_bucket_name, find_bucket_go, BUCKETS, inBucket, HELL_VALUE]
  · norm_num [find_bucket_name, find_bucket_go, BUCKETS, inBucket, HELL_VALUE]

/-- C1 witness: the amended theorem applied at the concrete vote value 3. -/
theorem histogram_bucket_assignment_witness :
    (0 : ℚ) ≤ 3 ∧ (3 : ℚ) ≤ 10 ∧ (∃! b, b ∈ BUCKETS ∧ inBucket 3 b) :=
  ⟨by norm_num, by norm_num, (histogram_bucket_assignment 3 (by norm_num) (by norm_num)).1⟩

theorem keys_mk (key : T → K) (vs : List T) :
    SequenceCache.keys ⟨key, vs⟩ = vs.map key := rfl

theorem addManyGo_error [DecidableEq K] (c : SequenceCache K T) (objs acc : List T)
    (h : ∃ o ∈ objs, c.key o ∈ c.keys) :
    c.addManyGo objs acc = Except.error CacheError.alreadyExists := by
  revert h
  induction objs generalizing acc with
  | nil => rintro ⟨o, ho, -⟩; cases ho
  | cons o rest ih =>
    rintro ⟨o2, ho2, hk2⟩
    by_cases hk : c.key o ∈ c.keys
    · simp [SequenceCache.addManyGo, hk]
    · rcases List.mem_cons.mp ho2 with rfl | ho3
      · exact absurd hk2 hk
      · simp only [SequenceCache.addManyGo, if_neg hk]
        exact ih (acc ++ [o]) ⟨o2, ho3, hk2⟩

theorem addManyGo_ok [DecidableEq K] (c : SequenceCache K T) (objs acc : List T)
    (h : ∀ o ∈ objs, c.key o ∉ c.keys) :
    c.addManyGo objs acc = Except.ok (acc ++ objs) := by
  revert h
  induction objs generalizing acc with
  | nil => intro h; simp [SequenceCache.addManyGo]
  | cons o rest ih =>
    intro h
    have hk := h o (List.mem_cons_self o rest)
    simp only [SequenceCache.addManyGo, if_neg hk]
    rw [ih (acc ++ [o]) fun o2 h2 => h o2 (List.mem_cons_of_mem o h2)]
    simp

theorem add_many_ok_of [DecidableEq K] (c : SequenceCache K T) (objs : List T)
    (h : ∀ o ∈ objs, c.key o ∉ c.keys) :
    c.add_many objs = Except.ok { c with values := c.values ++ objs } := by
  rw [SequenceCache.add_many, addManyGo_ok c objs [] h]
  rfl

theorem add_many_ok_inv [DecidableEq K] (c : SequenceCache K T) (objs : List T)
    (c2 : SequenceCache K T) (h : c.add_many objs = Except.ok c2) :
    (∀ o ∈ objs, c.key o ∉ c.keys)
    ∧ c2 = { c with values := c.values ++ objs } := by
  by_cases hex : ∃ o ∈ objs, c.key o ∈ c.keys
  · rw [SequenceCache.add_many, addManyGo_error c objs [] hex] at h
    cases h
  · push_neg at hex
    rw [add_many_ok_of c objs hex] at h
    cases h
    exact ⟨hex, rfl⟩

theorem keys_nodup_add_many [DecidableEq K] (c : SequenceCache K T) (objs : List T)
    (c2 : SequenceCache K T) (hn : c.keys.Nodup) (hb : (objs.map c.key).Nodup)
    (h : c.add_many objs = Except.ok c2) : c2.keys.Nodup := by
  obtain ⟨hall, rfl⟩ := add_many_ok_inv c objs c2 h
  rw [keys_mk, List.map_append, List.nodup_append]
  refine ⟨hn, hb, fun a ha ha2 => ?_⟩
  obtain ⟨o, ho, rfl⟩ := List.mem_map.mp ha2
  exact hall o ho ha

theorem remove_one_ok_inv [DecidableEq K] [DecidableEq T] (c : SequenceCache K T) (k : K)
    (c2 : SequenceCache K T) (h : c.remove_one k = Except.ok c2) :
    c2.values.Sublist c.values ∧ c2.key = c.key := by
  rw [SequenceCache.remove_one] at h
  split at h
  · cases h
  · split at h
    · cases h
      exact ⟨List.erase_sublist _ _, rfl⟩
    · cases h
      exact ⟨List.Sublist.refl _, rfl⟩

theorem keys_nodup_applyCacheOp [DecidableEq K] [DecidableEq T] (c : SequenceCache K T)
    (op : CacheOp K T) (hn : c.keys.Nodup) (hop : opBatchKeysNodup c.key op) :
    (applyCacheOp c op).keys.Nodup ∧ (applyCacheOp c op).key = c.key := by
  cases op with
  | addOne x =>
    cases h : c.add_one x with
    | ok c2 =>
      obtain ⟨-, rfl⟩ := add_many_ok_inv c [x] c2 h
      simp only [applyCacheOp, h]
      exact ⟨keys_nodup_add_many c [x] _ hn (by simp) h, by simp⟩
    | error e => simp only [applyCacheOp, h]; exact ⟨hn, by simp⟩
  | addMany xs =>
    cases h : c.add_many xs with
    | ok c2 =>
      obtain ⟨-, rfl⟩ := add_many_ok_inv c xs c2 h
      simp only [applyCacheOp, h]
      exact ⟨keys_nodup_add_many c xs _ hn hop h, by simp⟩
    | error e => simp only [applyCacheOp, h]; exact ⟨hn, by simp⟩
  | removeOne k =>
    cases h : c.remove_one k with
    | ok c2 =>
      obtain ⟨hsub, hkey⟩ := remove_one_ok_inv c k c2 h
      simp only [applyCacheOp, h]
      refine ⟨List.Nodup.sublist ?_ hn, hkey⟩
      rw [SequenceCache.keys, SequenceCache.keys, hkey]
      exact hsub.map c.key
    | error e => simp only [applyCacheOp, h]; exact ⟨hn, by simp⟩

theorem keys_nodup_applyCacheOps [DecidableEq K] [DecidableEq T] (c : SequenceCache K T)
    (ops : List (CacheOp K T)) (hn : c.keys.Nodup)
    (hops : ∀ op ∈ ops, opBatchKeysNodup c.key op) :
    (applyCacheOps c ops).keys.Nodup := by
  induction ops generalizing c with
  | nil => exact hn
  | cons op rest ih =>
    obtain ⟨h1, h2⟩ := keys_nodup_applyCacheOp c op hn (hops op (List.mem_cons_self op rest))
    exact ih (applyCacheOp c op) h1 fun op2 hop2 => by
      rw [h2]; exact hops op2 (List.mem_cons_of_mem op hop2)

/-- C2 counterexample: an add_many batch that repeats a fresh key is
accepted whole — on the empty map-names collection the batch with the value
"a" twice succeeds and leaves two entries with the equal key "a", so the
claim that no add_many call can yield duplicate keys (including a batch
containing two entries with the same key) is false. -/
theorem cache_addMany_batch_dup_counterexample :
    emptyMapNames.add_many [MapNamesData.mk ['a'], MapNamesData.mk ['a']]
      = Except.ok { key := MapNamesData.value,
                    values := [MapNamesData.mk ['a'], MapNamesData.mk ['a']] }
    ∧ SequenceCache.keys { key := MapNamesData.value,
                           values := [MapNamesData.mk ['a'], MapNamesData.mk ['a']] }
      = [['a'], ['a']]
    ∧ ¬ ([['a'], ['a']] : List (List Char)).Nodup :=
  ⟨rfl, rfl, by decide⟩

/-- C2 (amended): add_many raises AlreadyExists when any key of the batch is
already present in the collection and then adds none of the batch; when it
succeeds it appends exactly the batch; and key uniqueness is preserved by
every sequence of add_one / add_many / remove_one operations provided each
add_many batch has pairwise-distinct keys — a batch repeating a fresh key is
the one way to create duplicates, since batch keys are checked only against
the keys already stored. -/
theorem cache_key_uniqueness [DecidableEq K] [DecidableEq T] (c : SequenceCache K T)
    (objs : List T) (ops : List (CacheOp K T)) (hn : c.keys.Nodup)
    (hops : ∀ op ∈ ops, opBatchKeysNodup c.key op) :
    ((∃ o ∈ objs, c.key o ∈ c.keys) →
      c.add_many objs = Except.error CacheError.alreadyExists)
    ∧ (∀ c2, c.add_many objs = Except.ok c2 →
        (∀ o ∈ objs, c.key o ∉ c.keys) ∧ c2.values = c.values ++ objs)
    ∧ (applyCacheOps c ops).keys.Nodup := by
  refine ⟨fun hex => ?_, fun c2 h => ?_, keys_nodup_applyCacheOps c ops hn hops⟩
  · rw [SequenceCache.add_many, addManyGo_error c objs [] hex]
    rfl
  · obtain ⟨hall, rfl⟩ := add_many_ok_inv c objs c2 h
    exact ⟨hall, rfl⟩

/-- C2 witness: the amended theorem applied to the empty map-names
collection with a one-element batch and a one-operation sequence. -/
theorem cache_key_uniqueness_witness :
    (SequenceCache.keys emptyMapNames).Nodup
    ∧ (applyCacheOps emptyMapNames [CacheOp.addOne (MapNamesData.mk ['a'])]).keys.Nodup :=
  ⟨by decide,
    (cache_key_uniqueness emptyMapNames [] [CacheOp.addOne (MapNamesData.mk ['a'])]
      (by decide)
      (fun op hop => by
        rcases List.mem_singleton.mp hop with rfl
        exact trivial)).2.2⟩

/-- C8: cache round trip on any collection.  For an entry x whose key is
absent, add_one succeeds; find on that key then returns x itself; a second
add_one with an entry of the same key raises AlreadyExists; remove_one on an
absent key raises DoesNotExist; and after remove_one of x's key, find on it
returns not-found. -/
theorem cache_round_trip [DecidableEq K] [DecidableEq T] (c : SequenceCache K T)
    (x x2 : T) (k : K) (hx : c.key x ∉ c.keys) (hk : k ∉ c.keys)
    (hx2 : c.key x2 = c.key x) :
    ∃ c2, c.add_one x = Except.ok c2
      ∧ c2.find (c.key x) = some x
      ∧ c2.add_one x2 = Except.error CacheError.alreadyExists
      ∧ c.remove_one k = Except.error CacheError.doesNotExist
      ∧ ∃ c3, c2.remove_one (c.key x) = Except.ok c3 ∧ c3.find (c.key x) = none := by
  have hxv : x ∉ c.values := fun hm => hx (List.mem_map_of_mem c.key hm)
  have hnone : c.values.find? (fun o => decide (c.key o = c.key x)) = none := by
    rw [List.find?_eq_none]
    intro o ho
    simp only [decide_eq_true_eq]
    intro he
    exact hx (he ▸ List.mem_map_of_mem c.key ho)
  have hadd : c.add_one x = Except.ok { c with values := c.values ++ [x] } :=
    add_many_ok_of c [x] (by
      intro o ho
      rcases List.mem_singleton.mp ho with rfl
      exact hx)
  have hfound : ({ c with values := c.values ++ [x] } : SequenceCache K T).find (c.key x)
      = some x := by
    show (c.values ++ [x]).find? (fun o => decide (c.key o = c.key x)) = some x
    rw [List.find?_append, hnone]
    simp
  have hmem : c.key x ∈ ({ c with values := c.values ++ [x] } : SequenceCache K T).keys := by
    show c.key x ∈ (c.values ++ [x]).map c.key
    exact List.mem_map_of_mem c.key (List.mem_append_right _ (List.mem_singleton_self x))
  have hadd2 : ({ c with values := c.values ++ [x] } : SequenceCache K T).add_one x2
      = Except.error CacheError.alreadyExists := by
    rw [SequenceCache.add_one, SequenceCache.add_many,
      addManyGo_error _ [x2] [] ⟨x2, List.mem_singleton_self x2, by
        show c.key x2 ∈ _
        rw [hx2]
        exact hmem⟩]
    rfl
  have herase : (c.values ++ [x]).erase x = c.values := by
    rw [List.erase_append_right _ hxv, List.erase_cons_head, List.append_nil]
  have hrm : ({ c with values := c.values ++ [x] } : SequenceCache K T).remove_one (c.key x)
      = Except.ok { c with values := (c.values ++ [x]).erase x } := by
    rw [SequenceCache.remove_one, if_neg (not_not_intro hmem), hfound]
  have hlast : ({ c with values := (c.values ++ [x]).erase x } : SequenceCache K T).find
      (c.key x) = none := by
    show ((c.values ++ [x]).erase x).find? (fun o => decide (c.key o = c.key x)) = none
    rw [herase]
    exact hnone
  exact ⟨_, hadd, hfound, hadd2, by rw [SequenceCache.remove_one, if_pos hk], _, hrm, hlast⟩

/-- C8 witness: the round-trip theorem applied to a concrete natural-number
collection holding the key 5, with the new entry 7 and the absent key 9. -/
theorem cache_round_trip_witness :
    ((⟨id, [5]⟩ : SequenceCache ℕ ℕ).key 7 ∉ (⟨id, [5]⟩ : SequenceCache ℕ ℕ).keys)
    ∧ (9 ∉ (⟨id, [5]⟩ : SequenceCache ℕ ℕ).keys)
    ∧ ∃ c2, (⟨id, [5]⟩ : SequenceCache ℕ ℕ).add_one 7 = Except.ok c2
      ∧ c2.find ((⟨id, [5]⟩ : SequenceCache ℕ ℕ).key 7) = some 7
      ∧ c2.add_one 7 = Except.error CacheError.alreadyExists
      ∧ (⟨id, [5]⟩ : SequenceCache ℕ ℕ).remove_one 9 = Except.error CacheError.doesNotExist
      ∧ ∃ c3, c2.remove_one ((⟨id, [5]⟩ : SequenceCache ℕ ℕ).key 7) = Except.ok c3
          ∧ c3.find ((⟨id, [5]⟩ : SequenceCache ℕ ℕ).key 7) = none :=
  ⟨by decide, by decide, cache_round_trip ⟨id, [5]⟩ 7 7 9 (by decide) (by decide) rfl⟩

theorem creator_nodup_applyCreatorOp (m : MapData) (op : CreatorOp)
    (hn : m.user_ids.Nodup) : (applyCreatorOp m op).user_ids.Nodup := by
  cases op with
  | add uid =>
    by_cases h : uid ∈ m.user_ids
    · simp [applyCreatorOp, MapData.add_creator, h, hn]
    · simp only [applyCreatorOp, MapData.add_creator, if_neg h]
      show (m.user_ids ++ [uid]).Nodup
      rw [List.nodup_append]
      exact ⟨hn, List.nodup_singleton uid, fun a ha ha2 => h (List.mem_singleton.mp ha2 ▸ ha)⟩
  | remove uid =>
    by_cases h : uid ∉ m.user_ids
    · simp [applyCreatorOp, MapData.remove_creator, h, hn]
    · simp only [applyCreatorOp, MapData.remove_creator, if_neg h]
      show (m.user_ids.erase uid).Nodup
      exact List.Nodup.sublist (List.erase_sublist uid m.user_ids) hn

theorem creator_nodup_applyCreatorOps (m : MapData) (ops : List CreatorOp)
    (hn : m.user_ids.Nodup) : (applyCreatorOps m ops).user_ids.Nodup := by
  induction ops generalizing m with
  | nil => exact hn
  | cons op rest ih => exact ih _ (creator_nodup_applyCreatorOp m op hn)

/-- C5 counterexample: the creator list of a MapData entry can become empty.
Removing the sole creator of the entry with map code "A" succeeds and leaves
an empty creator-id list, so the claim that the list stays non-empty after
any operation sequence is false. -/
theorem creator_list_emptied_counterexample :
    (MapData.mk "A" [1] false).remove_creator 1 = Except.ok (MapData.mk "A" [] false)
    ∧ (MapData.mk "A" [] false).user_ids = []
    ∧ applyCreatorOps (MapData.mk "A" [1] false) [CreatorOp.remove 1]
        = MapData.mk "A" [] false :=
  ⟨rfl, rfl, rfl⟩

/-- C5 (amended): for every MapData entry with a duplicate-free creator
list, add_creator of a present id raises AlreadyExists (not a silent no-op),
remove_creator of an absent id raises DoesNotExist, a successful add appends
the new id, and every sequence of add/remove operations preserves freedom
from duplicates — but the list is not kept non-empty: removing the last
creator succeeds and empties it. -/
theorem map_creator_list_ops (m : MapData) (uid : Int) (ops : List CreatorOp)
    (hn : m.user_ids.Nodup) :
    (uid ∈ m.user_ids → m.add_creator uid = Except.error CacheError.alreadyExists)
    ∧ (uid ∉ m.user_ids → m.remove_creator uid = Except.error CacheError.doesNotExist)
    ∧ (∀ m2, m.add_creator uid = Except.ok m2 →
        m2.user_ids = m.user_ids ++ [uid] ∧ m2.user_ids.Nodup)
    ∧ (applyCreatorOps m ops).user_ids.Nodup := by
  refine ⟨fun h => ?_, fun h => ?_, fun m2 h => ?_, creator_nodup_applyCreatorOps m ops hn⟩
  · rw [MapData.add_creator, if_pos h]
  · rw [MapData.remove_creator, if_pos h]
  · rw [MapData.add_creator] at h
    split at h
    · cases h
    · cases h
      refine ⟨rfl, ?_⟩
      show (m.user_ids ++ [uid]).Nodup
      rw [List.nodup_append]
      next hne =>
        exact ⟨hn, List.nodup_singleton uid,
          fun a ha ha2 => hne (List.mem_singleton.mp ha2 ▸ ha)⟩

/-- C5 witness: the amended theorem applied to the entry with map code "A",
sole creator 1, the candidate id 2 and the one-step sequence adding it. -/
theorem map_creator_list_ops_witness :
    ([1] : List Int).Nodup
    ∧ (applyCreatorOps (MapData.mk "A" [1] false) [CreatorOp.add 2]).user_ids.Nodup :=
  ⟨by decide,
    (map_creator_list_ops (MapData.mk "A" [1] false) 2 [CreatorOp.add 2] (by decide)).2.2.2⟩

/-- C9: the autocomplete over any collection.  Every reply has at most 25
entries; an empty prefix keeps the first 25 choices of the collection in
ascending key order (the choices property sorts by key, shown by the
pairwise-sorted and permutation conjuncts); a non-empty prefix keeps only
choices whose display name contains the prefix case-insensitively; and a
prefix matching nothing yields the empty list rather than an error. -/
theorem autocomplete_spec [LinearOrder K] (c : SequenceCache K T)
    (choiceOf : T → Choice) (current : List Char) :
    (autocomplete_choices current (c.choices choiceOf)).length ≤ 25
    ∧ autocomplete_choices [] (c.choices choiceOf) = (c.choices choiceOf).take 25
    ∧ (c.sortedValues.Pairwise fun a b => c.key a ≤ c.key b)
    ∧ c.sortedValues.Perm c.values
    ∧ (current ≠ [] → ∀ x ∈ autocomplete_choices current (c.choices choiceOf),
        case_ignore_compare x.name current = true)
    ∧ ((c.choices choiceOf).filter (fun x => case_ignore_compare x.name current) = [] →
        current ≠ [] → autocomplete_choices current (c.choices choiceOf) = []) := by
  refine ⟨?_, ?_, ?_, ?_, fun hc x hx => ?_, fun hf hc => ?_⟩
  · rw [autocomplete_choices]
    split
    · simp
    · split
      · exact List.length_take_le 25 _
      · exact List.length_take_le 25 _
  · rw [autocomplete_choices]
    split
    · next h => rw [h]; simp
    · rw [if_pos rfl]
  · have htotal : ∀ a b : T,
        (decide (c.key a ≤ c.key b) || decide (c.key b ≤ c.key a)) = true := by
      intro a b
      simp only [Bool.or_eq_true, decide_eq_true_eq]
      exact le_total (c.key a) (c.key b)
    have htrans : ∀ a b d : T, decide (c.key a ≤ c.key b) = true →
        decide (c.key b ≤ c.key d) = true → decide (c.key a ≤ c.key d) = true := by
      intro a b d h1 h2
      simp only [decide_eq_true_eq] at h1 h2 ⊢
      exact le_trans h1 h2
    have hs := @List.sorted_mergeSort T (fun a b => decide (c.key a ≤ c.key b))
      htrans htotal c.values
    refine hs.imp ?_
    intro a b hab
    exact of_decide_eq_true hab
  · exact List.mergeSort_perm c.values _
  · by_cases hempty : c.choices choiceOf = []
    · rw [autocomplete_choices, if_pos hempty] at hx
      cases hx
    · rw [autocomplete_choices, if_neg hempty, if_neg hc] at hx
      exact (List.mem_filter.mp (List.mem_of_mem_take hx)).2
  · by_cases hempty : c.choices choiceOf = []
    · rw [autocomplete_choices, if_pos hempty]
    · rw [autocomplete_choices, if_neg hempty, if_neg hc, hf]
      rfl

/-- C9 witness: the autocomplete theorem applied to a concrete empty
collection with the one-character prefix "a", exercising the
nothing-matches conjunct. -/
theorem autocomplete_spec_witness :
    autocomplete_choices ['a']
      ((⟨id, []⟩ : SequenceCache ℕ ℕ).choices fun _ => Choice.mk ['b'] []) = [] :=
  (autocomplete_spec (⟨id, []⟩ : SequenceCache ℕ ℕ) (fun _ => Choice.mk ['b'] []) ['a']).2.2.2.2.2
    (by simp [SequenceCache.choices, SequenceCache.sortedValues]) (by decide)

theorem weekly_min_spec (l : List Int) (h : l ≠ []) :
    ∃ m, l.min? = some m ∧ m ∈ l ∧ ∀ x ∈ l, m ≤ x := by
  cases hm : l.min? with
  | none => exact absurd (List.min?_eq_none_iff.mp hm) h
  | some m =>
    refine ⟨m, rfl, List.min?_mem (fun a b => min_choice a b) hm, ?_⟩
    intro x hx
    exact (List.le_min?_iff (fun a b d => le_min_iff) hm).mp (le_refl m) x hx

/-- C6: when the medal rule passes and the concurrent-playtest quota is not
hit, a user with at least 2 submissions in the trailing 7-day window has the
next submit attempt rejected with MaxWeeklyMapsInPlaytest, and the retry
timestamp carried by the error is the earliest counted submission's
timestamp plus 7 days (the minimum of the window, plus one week). -/
theorem weekly_quota_retry (m : MapSubmission) (openc : Nat) (dates : List Int) (now : Int)
    (hm : medal_check m = Except.ok ()) (ho : openc < 5)
    (hcount : 2 ≤ (weekly_window dates now).length) :
    ∃ earliest, (weekly_window dates now).min? = some earliest
      ∧ earliest ∈ weekly_window dates now
      ∧ (∀ d ∈ weekly_window dates now, earliest ≤ d)
      ∧ submit_map_checks m openc dates now
          = Except.error (SubmitError.maxWeeklyMapsInPlaytest (earliest + WEEK_SECONDS)) := by
  have hne : weekly_window dates now ≠ [] := by
    intro h
    rw [h] at hcount
    simp at hcount
  obtain ⟨e, he, hmem, hle⟩ := weekly_min_spec _ hne
  refine ⟨e, he, hmem, hle, ?_⟩
  rw [submit_map_checks, hm, if_neg (not_le.mpr ho), if_pos hcount, he]
  rfl

/-- C6 witness: the weekly-quota theorem applied to a submission with no
medals set, no open playtests, and the submission dates 0 and 100 seen at
time 200 (both inside the window, earliest 0). -/
theorem weekly_quota_retry_witness :
    medal_check (MapSubmission.mk 0 0 0) = Except.ok ()
    ∧ (0 : Nat) < 5
    ∧ 2 ≤ (weekly_window [0, 100] 200).length
    ∧ ∃ earliest, (weekly_window [0, 100] 200).min? = some earliest
      ∧ earliest ∈ weekly_window [0, 100] 200
      ∧ (∀ d ∈ weekly_window [0, 100] 200, earliest ≤ d)
      ∧ submit_map_checks (MapSubmission.mk 0 0 0) 0 [0, 100] 200
          = Except.error (SubmitError.maxWeeklyMapsInPlaytest (earliest + WEEK_SECONDS)) :=
  ⟨by norm_num [medal_check, MapSubmission.medals], by norm_num, by decide,
    weekly_quota_retry (MapSubmission.mk 0 0 0) 0 [0, 100] 200
      (by norm_num [medal_check, MapSubmission.medals]) (by norm_num) (by decide)⟩

/-- C7: a submission with medal thresholds set passes the medal validation
if and only if 0 < gold < silver < bronze, and otherwise is rejected with
InvalidMedals; in particular (10,20,30) is accepted while (20,10,30) and
(10,20,20) are rejected. -/
theorem medal_rule (m : MapSubmission) (h : m.medals = true) :
    (medal_check m = Except.ok ()
      ↔ 0 < m.gold ∧ m.gold < m.silver ∧ m.silver < m.bronze)
    ∧ (¬ (0 < m.gold ∧ m.gold < m.silver ∧ m.silver < m.bronze) →
        medal_check m = Except.error SubmitError.invalidMedals)
    ∧ medal_check (MapSubmission.mk 10 20 30) = Except.ok ()
    ∧ medal_check (MapSubmission.mk 20 10 30) = Except.error SubmitError.invalidMedals
    ∧ medal_check (MapSubmission.mk 10 20 20) = Except.error SubmitError.invalidMedals := by
  refine ⟨?_, fun hno => ?_, ?_, ?_, ?_⟩
  · rw [medal_check, if_pos h]
    constructor
    · intro hok
      by_contra hno
      rw [if_pos hno] at hok
      cases hok
    · intro hyes
      rw [if_neg (not_not_intro hyes)]
  · rw [medal_check, if_pos h, if_pos hno]
  · norm_num [medal_check, MapSubmission.medals]
  · norm_num [medal_check, MapSubmission.medals]
  · norm_num [medal_check, MapSubmission.medals]

/-- C7 witness: the medal-rule theorem applied at the thresholds
(10, 20, 30), whose medals flag is set. -/
theorem medal_rule_witness :
    (MapSubmission.mk 10 20 30).medals = true
    ∧ (medal_check (MapSubmission.mk 10 20 30) = Except.ok ()
        ↔ 0 < (MapSubmission.mk 10 20 30).gold
          ∧ (MapSubmission.mk 10 20 30).gold < (MapSubmission.mk 10 20 30).silver
          ∧ (MapSubmission.mk 10 20 30).silver < (MapSubmission.mk 10 20 30).bronze) :=
  ⟨by norm_num [MapSubmission.medals],
    (medal_rule (MapSubmission.mk 10 20 30) (by norm_num [MapSubmission.medals])).1⟩

/-- C3: the hourly staleness sweep does not persist the flag it relies on.
The SELECT reads the change_requests table but _set_alerted updates the
table named change_request (singular), so the alerted column the sweep
filters on never becomes TRUE: a single stale open request (thread 1,
created at time 0, sweeps at two weeks plus one hour and an hour later,
thread present) is alerted by the first sweep, still unflagged afterwards,
and alerted again by the second sweep — the claim that it is flagged
exactly once and never re-alerted is what the code was meant to do and
fails to do. -/
theorem stale_sweep_wrong_table :
    (sweep_stale_change_requests ⟨[⟨1, 2, 0, false, false⟩], []⟩ 1213200
        (fun _ => true)).2 = [1]
    ∧ ((sweep_stale_change_requests ⟨[⟨1, 2, 0, false, false⟩], []⟩ 1213200
        (fun _ => true)).1.change_requests.map ChangeRequestRow.alerted) = [false]
    ∧ (sweep_stale_change_requests
        (sweep_stale_change_requests ⟨[⟨1, 2, 0, false, false⟩], []⟩ 1213200
          (fun _ => true)).1
        1216800 (fun _ => true)).2 = [1] :=
  ⟨rfl, rfl, rfl⟩

/-- C4 counterexample: an envelope tagged legacy does not complete without
error — the legacy branch binds no payload and the fall-through event
dispatch reads an unbound variable, so processing raises instead of
dispatching a handler. -/
theorem queue_legacy_error_counterexample :
    process_message ⟨some "legacy", false⟩ = Except.error ProcessError.unboundEventData := rfl

/-- C4 (amended): envelopes tagged playtest, bulk_archive or bulk_unarchive
dispatch exactly one handler and complete without error; unknown tags are
dropped without error; a test-mode envelope short-circuits with zero side
effects; but the fourth known tag, legacy, raises an unbound-payload error
before any handler runs. -/
theorem queue_dispatch (t : String)
    (hunknown : t ≠ "playtest" ∧ t ≠ "bulk_archive" ∧ t ≠ "bulk_unarchive" ∧ t ≠ "legacy") :
    process_message ⟨some "playtest", false⟩ = Except.ok [RabbitSideEffect.add_playtest]
    ∧ process_message ⟨some "bulk_archive", false⟩
        = Except.ok [RabbitSideEffect.handle_event "bulk_archive"]
    ∧ process_message ⟨some "bulk_unarchive", false⟩
        = Except.ok [RabbitSideEffect.handle_event "bulk_unarchive"]
    ∧ process_message ⟨some t, false⟩ = Except.ok []
    ∧ (∀ t2, process_message ⟨some t2, true⟩ = Except.ok [])
    ∧ process_message ⟨some "legacy", false⟩ = Except.error ProcessError.unboundEventData := by
  obtain ⟨h1, h2, h3, h4⟩ := hunknown
  refine ⟨rfl, rfl, rfl, ?_, fun t2 => rfl, rfl⟩
  simp [process_message, h1, h2, h3, h4]

/-- C4 witness: the dispatch theorem applied at the unknown tag "other". -/
theorem queue_dispatch_witness :
    ("other" ≠ "playtest" ∧ "other" ≠ "bulk_archive"
      ∧ "other" ≠ "bulk_unarchive" ∧ "other" ≠ "legacy")
    ∧ process_message ⟨some "other", false⟩ = Except.ok [] :=
  ⟨by decide, (queue_dispatch "other" (by decide)).2.2.2.1⟩

/-- C10: an envelope without an x-type header fails with the header error
before the test-mode check is reached — even when it carries the test-mode
marker — while the test-mode short-circuit (zero side effects) applies to
every envelope that does carry an x-type header. -/
theorem queue_missing_header (tm : Bool) (t : String) :
    process_message ⟨none, tm⟩ = Except.error ProcessError.missingTypeHeader
    ∧ process_message ⟨some t, true⟩ = Except.ok [] :=
  ⟨rfl, rfl⟩
